import Mathlib

/-!
Verification development for the `privex-steemengine` client library.

The Python sources under `privex/steemengine/` are shallowly embedded below:

* Python `Decimal` values are modelled as exact rationals (`ℚ`).  All amounts
  handled by the theorems are far inside the 28-significant-digit default
  context of Python `decimal`, where `Decimal` comparison, multiplication and
  `quantize` are exact, so the rational model is exact in the covered regime.
* Python `str` values are Lean `String`s; `str.upper`, `str.lower` and
  `str.startswith` are re-implemented over the character list so that they
  compute by kernel reduction (ASCII casing, which covers account names and
  token symbols).
* The remote JSON-RPC service, the history service and the blockchain SDK
  (beem) are black boxes, exactly as the library treats them: an `Env` record
  supplies their responses, and the embedded facade operations are functions
  of that record.
* A raised Python exception is an `Except.error`; a broadcast
  (`steem.custom_json`) is recorded in the second component of the operation
  result, so an operation that raises before the broadcast line returns an
  empty broadcast list.

Some arithmetic primitives of `Rat` are `@[irreducible]`; they are made
semireducible locally so that concrete runs of the embedded operations can be
evaluated by `rfl`/`decide` inside witness proofs.
-/

namespace SE

attribute [local semireducible] Rat.mul Rat.add Rat.sub Rat.inv

/-! ## Exact model of the numeric primitives -/

/-- Round a rational to the nearest integer, ties to the even integer.
This is the rounding of IEEE-754 binary64 (used by the float that CPython
`pow(10, -p)` produces) and of Python `Decimal.__format__`
(ROUND_HALF_EVEN). -/
def roundHalfEvenInt (x : ℚ) : ℤ :=
  let n := x.num
  let d : ℤ := (x.den : ℤ)
  let f := Int.fdiv n d
  let twiceRem := 2 * (n - f * d)
  if twiceRem < d then f
  else if d < twiceRem then f + 1
  else if f % 2 = 0 then f else f + 1

/-- Normalise a positive rational into the binade `[1, 2)`: with enough fuel,
returns `(s, e)` with `q = s * 2 ^ e` and `1 ≤ s < 2`. -/
def normAux : ℕ → ℚ → ℤ → ℚ × ℤ
  | 0, q, e => (q, e)
  | fuel+1, q, e =>
    if q < 1 then normAux fuel (2 * q) (e - 1)
    else if 2 ≤ q then normAux fuel (q / 2) (e + 1)
    else (q, e)

/-- `2 ^ e` over `ℚ` for an integer exponent. -/
def twoPowZ (e : ℤ) : ℚ :=
  if 0 ≤ e then mkRat ((2 ^ e.toNat : ℕ) : ℤ) 1 else mkRat 1 (2 ^ (-e).toNat)

/-- The exact rational value of the IEEE-754 binary64 (double) nearest to a
positive rational `q`: round to nearest, ties to even, 53-bit significand.
The exponent range is not clipped, which is exact for the magnitudes that
occur here (no overflow and no subnormals for `10 ^ -p`, `p ≤ 8`). -/
def nearestDouble (q : ℚ) : ℚ :=
  if q ≤ 0 then 0
  else
    let se := normAux 4096 q 0
    let m : ℤ := roundHalfEvenInt (se.1 * mkRat ((2 ^ 52 : ℕ) : ℤ) 1)
    mkRat m 1 * twoPowZ (se.2 - 52)

/-- The exact rational value of the Python expression
`Decimal(pow(10, -precision))` used by the precision checks of `send_token`,
`issue_token` and `place_order`.  For `p = 0`, `pow(10, 0)` is the int `1`
(exact).  For `p ≥ 1`, CPython evaluates `pow(10, -p)` in binary64 float
arithmetic (correctly rounded for these arguments), and `Decimal(float)`
converts that double exactly. -/
def pyPowTenNeg (p : ℕ) : ℚ :=
  if p = 0 then 1 else nearestDouble (mkRat 1 (10 ^ p))

/-- `privex.helpers.dec_round(amount, dp)` under the module-wide context
rounding `ROUND_DOWN` installed by `SteemEngineToken.py` at import time:
quantize to `dp` decimal places, rounding towards zero. -/
def decRoundDown (x : ℚ) (dp : ℕ) : ℚ :=
  let p : ℚ := mkRat ((10 ^ dp : ℕ) : ℤ) 1
  mkRat (Int.tdiv (x * p).num ((x * p).den : ℤ)) 1 / p

/-! ## Fixed-point decimal formatting

`send_token` / `issue_token` serialise the quantity with
`('{0:.' + str(precision) + 'f}').format(amount)`, and `place_order` uses the
helper `round_str` which is the same format expression.  Formatting a
`Decimal` with `.Nf` prints a plain fixed-point string with exactly `N`
fractional digits, rounding to `N` places with ROUND_HALF_EVEN. -/

/-- The ASCII character of the decimal digit `d % 10`. -/
def digitChar (d : ℕ) : Char :=
  match d % 10 with
  | 0 => '0' | 1 => '1' | 2 => '2' | 3 => '3' | 4 => '4'
  | 5 => '5' | 6 => '6' | 7 => '7' | 8 => '8' | _ => '9'

/-- Decimal digits of `n` (most significant first), fuelled recursion. -/
def natChars : ℕ → ℕ → List Char
  | 0, _ => []
  | _+1, 0 => []
  | fuel+1, n => natChars fuel (n / 10) ++ [digitChar (n % 10)]

/-- The decimal representation of a natural number, as Python prints it. -/
def natRepr (n : ℕ) : List Char := if n = 0 then ['0'] else natChars (n + 1) n

/-- The `dp` fractional digit characters of a value `fracVal < 10 ^ dp`,
most significant first, zero-padded to exactly `dp` characters. -/
def fracChars (fracVal dp : ℕ) : List Char :=
  (List.range dp).map (fun i => digitChar (fracVal / 10 ^ (dp - 1 - i)))

/-- Python `('{0:.' + str(dp) + 'f}').format(x)` for a `Decimal` value `x`
(the body of `round_str` and of the payload quantity serialisation): a plain
fixed-point string with exactly `dp` fractional digits, no exponent, rounded
with ROUND_HALF_EVEN.  (The sign of a negative zero is elided; the
serialisation sites only ever format amounts that passed a positivity
check.) -/
def formatFixed (x : ℚ) (dp : ℕ) : String :=
  let n : ℤ := roundHalfEvenInt (x * mkRat ((10 ^ dp : ℕ) : ℤ) 1)
  let m : ℕ := n.natAbs
  let ip := natRepr (m / 10 ^ dp)
  let fp := fracChars (m % 10 ^ dp) dp
  let sign : List Char := if n < 0 then ['-'] else []
  String.mk (sign ++ ip ++ (if dp = 0 then [] else '.' :: fp))

/-- Number of characters after the first decimal point of a string
(`0` when there is no decimal point). -/
def fracDigits (s : String) : ℕ :=
  ((s.data.dropWhile (fun c => c != '.')).drop 1).length

/-- Every character is a digit, a decimal point or a minus sign: in
particular the string is plain fixed-point notation, never scientific. -/
def plainDecimalChars (s : String) : Prop :=
  ∀ c ∈ s.data, c.isDigit = true ∨ c = '.' ∨ c = '-'

/-- A serialised amount in plain fixed-point notation with exactly `dp`
fractional digits: never scientific notation, and trailing zeros below `dp`
are never stripped (the fractional part always has length `dp`). -/
def fixedPointString (s : String) (dp : ℕ) : Prop :=
  fracDigits s = dp ∧ plainDecimalChars s

/-! ## Python string primitives -/

/-- Python `str.upper()` (ASCII casing). -/
def pyUpper (s : String) : String := String.mk (s.data.map Char.toUpper)

/-- Python `str.lower()` (ASCII casing). -/
def pyLower (s : String) : String := String.mk (s.data.map Char.toLower)

/-- Python `str.startswith(pre)`. -/
def pyStartsWith (s pre : String) : Bool := pre.data.isPrefixOf s.data

/-! ## Data model (objects.py) -/

/-- A row of the `tokens` contract table (`objects.Token`), restricted to
the fields the embedded operations read. -/
structure Token where
  symbol : String
  issuer : String
  precision : ℕ
deriving DecidableEq, Repr

/-- A balance row (`objects.SEBalance`), with the balance already coerced to
an exact decimal by `conv_dec`. -/
structure SEBalance where
  account : String
  symbol : String
  balance : ℚ
deriving DecidableEq, Repr

/-- The `contractPayload` dict of a broadcast operation; absent dict keys are
`none`. -/
structure ContractPayload where
  symbol : String
  toAccount : Option String := none
  quantity : String
  price : Option String := none
  memo : Option String := none
deriving DecidableEq, Repr

/-- The `custom_json` operation handed to `steem.custom_json(network_account,
custom, [auth_account])`. -/
structure CustomJson where
  contractName : String
  contractAction : String
  contractPayload : ContractPayload
  requiredAuths : List String
deriving DecidableEq, Repr

/-- The Python exceptions raised by the embedded code paths.
`AccountNotFound` carries its message (the claims constrain which account the
message names); the other messages interpolate `Decimal` reprs and are not
modelled. `arithmeticError` is the built-in `ArithmeticError`,
`attributeError` the built-in `AttributeError`. -/
inductive SEErr where
  | tokenNotFound
  | arithmeticError
  | notEnoughBalance
  | accountNotFound (msg : String)
  | wrongNetwork
  | noResults
  | attributeError
deriving DecidableEq, Repr

/-- Raw keyword arguments of `SETrade` as fed by `from_list`: `direction` is
the dataclass field (default `None`), `rawType` is `raw_data['type']` when the
response row carried a `type` key.  Numeric fields are modelled as already
present (the rows of a `tradesHistory` response always carry them; `conv_dec`
of a numeric is its exact value). -/
structure RawTrade where
  symbol : String
  quantity : ℚ
  price : ℚ
  timestamp : ℚ
  volume : ℚ
  direction : Option String := none
  rawType : Option String := none
  buyer : Option String := none
  seller : Option String := none
deriving DecidableEq, Repr

/-- A fully constructed `SETrade` record. -/
structure SETrade where
  symbol : String
  quantity : ℚ
  price : ℚ
  timestamp : ℚ
  volume : ℚ
  direction : String
  buyer : Option String
  seller : Option String
deriving DecidableEq, Repr

/-- The direction resolution of `SETrade.__post_init__`:
`if not self.direction and 'type' in self.raw_data: self.direction =
self.raw_data.get('type')` (`not` is Python falsiness: `None` or the empty
string). -/
def resolveDirection (direction rawType : Option String) : Option String :=
  if (direction = none ∨ direction = some "") ∧ rawType ≠ none then rawType
  else direction

/-- `SETrade.__post_init__`: resolve the direction, then
`if self.direction not in ['buy', 'sell']: raise AttributeError(...)`. -/
def mkSETrade (r : RawTrade) : Except SEErr SETrade :=
  match resolveDirection r.direction r.rawType with
  | some d =>
    if d = "buy" ∨ d = "sell" then
      .ok { symbol := r.symbol, quantity := r.quantity, price := r.price,
            timestamp := r.timestamp, volume := r.volume, direction := d,
            buyer := r.buyer, seller := r.seller }
    else .error .attributeError
  | none => .error .attributeError

/-- Raw keyword arguments of `SEOrder` as fed by `from_list`; `tokensLocked`
is the raw-payload key read back by `__post_init__` when the dataclass field
kept its falsy default. -/
structure RawOrder where
  symbol : String
  account : String
  quantity : ℚ
  price : ℚ
  timestamp : ℚ
  expiration : ℚ
  txId : Option String := none
  tokensLocked : Option ℚ := none
deriving DecidableEq, Repr

/-- A fully constructed `SEOrder` record. -/
structure SEOrder where
  symbol : String
  account : String
  quantity : ℚ
  price : ℚ
  timestamp : ℚ
  expiration : ℚ
  txid : Option String
  tokens_locked : ℚ
deriving DecidableEq, Repr

/-- `SEOrder.__post_init__`: pull `tokensLocked` out of the raw payload when
the field is falsy, coerce numerics, normalise `symbol` to upper case and
`account` to lower case, and default `txid` from the raw `txId` key. -/
def mkSEOrder (r : RawOrder) (tokens_locked : ℚ) : SEOrder :=
  let tl := if tokens_locked = 0 ∧ r.tokensLocked ≠ none
    then r.tokensLocked.getD tokens_locked else tokens_locked
  { symbol := pyUpper r.symbol, account := pyLower r.account,
    quantity := r.quantity, price := r.price, timestamp := r.timestamp,
    expiration := r.expiration, txid := r.txId, tokens_locked := tl }

/-! ## Trade-history queries (SteemEngineToken.query_order_history etc.)

The remote `rpc.find` response is the input: `none` is a `None`/absent
response (`empty(res)` is true), `some rows` is a JSON row list — note that
`empty([])` is `False` for the default arguments of `privex.helpers.empty`,
so an empty row list is NOT treated as an empty response. -/

/-- `query_order_history`: raise `NoResults` on an absent response, else
parse every row with the `SETrade` constructor. -/
def query_order_history (res : Option (List RawTrade)) : Except SEErr (List SETrade) :=
  match res with
  | none => .error .noResults
  | some rows => rows.mapM mkSETrade

/-- `order_history symbol ...` delegates to `query_order_history` (the query
parameters only shape the opaque remote call). -/
def order_history (res : Option (List RawTrade)) : Except SEErr (List SETrade) :=
  query_order_history res

/-- `find_fulfilled_buys txid ...` delegates to `query_order_history`. -/
def find_fulfilled_buys (res : Option (List RawTrade)) : Except SEErr (List SETrade) :=
  query_order_history res

/-- `find_fulfilled_sells txid ...` delegates to `query_order_history`. -/
def find_fulfilled_sells (res : Option (List RawTrade)) : Except SEErr (List SETrade) :=
  query_order_history res

/-- `find_fulfilled txid`: buys first, then sells, concatenated. -/
def find_fulfilled (resBuys resSells : Option (List RawTrade)) :
    Except SEErr (List SETrade) := do
  let buys ← find_fulfilled_buys resBuys
  let sells ← find_fulfilled_sells resSells
  return buys ++ sells

/-! ## get_orderbook -/

/-- The sortable numeric attributes of `SEOrder` that `sort_by` can name
(`getattr(p, sort_by)` in the source). -/
inductive OrderKey where
  | price | quantity | timestamp | expiration | tokensLocked
deriving DecidableEq, Repr

/-- `getattr(order, sort_by)` for the modelled attributes. -/
def orderKey (k : OrderKey) (o : SEOrder) : ℚ :=
  match k with
  | .price => o.price
  | .quantity => o.quantity
  | .timestamp => o.timestamp
  | .expiration => o.expiration
  | .tokensLocked => o.tokens_locked

/-- Python `sorted(l, key=key, reverse=rev)`: a stable ascending sort by the
key; `reverse=True` is implemented (as in CPython) by reversing, sorting
ascending stably, and reversing again.  Stable sorting by a total preorder is
unique, so Mathlib's stable `insertionSort` models it exactly. -/
def pySorted (key : SEOrder → ℚ) (rev : Bool) (l : List SEOrder) : List SEOrder :=
  if rev then (List.insertionSort (fun a b => key a ≤ key b) l.reverse).reverse
  else List.insertionSort (fun a b => key a ≤ key b) l

/-- `get_orderbook(symbol, direction, user, ..., indexes, sort_by,
sort_reverse)`.  The remote `buyBook`/`sellBook` response is the `res` input;
`indexes` only matters through emptiness (`len(indexes) == 0`); `sort_by` is
`none` for an empty/absent attribute name (`empty(sort_by)`). -/
def get_orderbook (direction : String) (res : Option (List RawOrder))
    (indexes : List Unit) (sort_by : Option OrderKey) (sort_reverse : Option Bool) :
    Except SEErr (List SEOrder) :=
  let dir := pyLower direction
  if dir ≠ "buy" ∧ dir ≠ "sell" then .error .attributeError
  else match res with
  | none => .error .noResults
  | some rows =>
    let orders := rows.map (fun r => mkSEOrder r 0)
    let sr := if indexes.length = 0 ∧ sort_by = some OrderKey.price ∧ sort_reverse = none
      then some (dir != "sell") else sort_reverse
    let sr2 := sr.getD false
    match sort_by with
    | none => .ok orders
    | some k => .ok (pySorted (orderKey k) sr2 orders)

/-! ## The facade environment and the broadcast operations -/

/-- The external world as the facade sees it: the contract-query RPC
(`findToken`, `balRows`), the blockchain SDK (`accountLen` for
`steem.rpc.get_account`, `chainName` for `steem.get_blockchain_name()`), and
the per-instance configuration set in `__init__`. -/
structure Env where
  findToken : String → Option Token
  balRows : String → List SEBalance
  accountLen : String → ℕ
  chainName : String
  network : String
  nativeCoin : String
  networkAccount : String

/-- `get_token(symbol)`: `findone` on the tokens table with the upper-cased
symbol, `None` when unknown. -/
def get_token (env : Env) (symbol : String) : Option Token :=
  env.findToken (pyUpper symbol)

/-- `get_token_balance(user, symbol)`: scan the user's balance rows for the
first row whose symbol matches `symbol.upper()`, else `Decimal(0)`. -/
def get_token_balance (env : Env) (user symbol : String) : ℚ :=
  match (env.balRows user).find? (fun b => b.symbol == pyUpper symbol) with
  | some b => b.balance
  | none => 0

/-- `verify_network()`: compare the lower-cased chain name of the RPC node
with the configured network, raising `WrongNetwork` on mismatch. -/
def verify_network (env : Env) : Except SEErr Unit :=
  if pyLower env.chainName ≠ pyLower env.network then .error .wrongNetwork
  else .ok ()

/-- `account_exists(user)`: calls `verify_network` first, then asks the SDK
for the account and tests `len(...) > 0`. -/
def account_exists (env : Env) (user : String) : Except SEErr Bool :=
  match verify_network env with
  | .error e => .error e
  | .ok _ => .ok (decide (0 < env.accountLen user))

/-- `send_token(symbol, from_acc, to_acc, amount, memo)` up to the
`custom_json` broadcast: the validation chain in source order, producing the
broadcast operation on success.  NOTE the faithful transcription of line 816:
the message of the sender-missing `AccountNotFound` is
`'Cannot send because the sender {} does not exist'.format(to_acc)` — it
interpolates `to_acc`, not `from_acc`. -/
def send_token_result (env : Env) (symbol from_acc to_acc : String)
    (amount : ℚ) (memo : String) : Except SEErr CustomJson :=
  match get_token env symbol with
  | none => .error .tokenNotFound
  | some t =>
    if amount < pyPowTenNeg t.precision then .error .arithmeticError
    else
      let balance := get_token_balance env from_acc symbol
      if amount > balance then .error .notEnoughBalance
      else match account_exists env from_acc with
        | .error e => .error e
        | .ok exFrom =>
          if exFrom = false then
            .error (.accountNotFound
              ("Cannot send because the sender " ++ to_acc ++ " does not exist"))
          else match account_exists env to_acc with
            | .error e => .error e
            | .ok exTo =>
              if exTo = false then
                .error (.accountNotFound
                  ("Cannot send because the receiver " ++ to_acc ++ " does not exist"))
              else match verify_network env with
                | .error e => .error e
                | .ok _ =>
                  .ok { contractName := "tokens", contractAction := "transfer",
                        contractPayload :=
                          { symbol := pyUpper symbol, toAccount := some to_acc,
                            quantity := formatFixed amount t.precision,
                            memo := some memo },
                        requiredAuths := [from_acc] }

/-- `send_token` together with the broadcast trace: the `custom_json` call is
reached exactly when no validation raised. -/
def send_token (env : Env) (symbol from_acc to_acc : String) (amount : ℚ)
    (memo : String) : Except SEErr CustomJson × List CustomJson :=
  match send_token_result env symbol from_acc to_acc amount memo with
  | .ok c => (.ok c, [c])
  | .error e => (.error e, [])

/-- `issue_token(symbol, to, amount)` up to the broadcast: token lookup,
precision check, existence check of the `to` account (whose `AccountNotFound`
message names `to`), network check, then the `issue` operation signed by the
token issuer. -/
def issue_token_result (env : Env) (symbol to_acc : String) (amount : ℚ) :
    Except SEErr CustomJson :=
  match get_token env symbol with
  | none => .error .tokenNotFound
  | some t =>
    if amount < pyPowTenNeg t.precision then .error .arithmeticError
    else match account_exists env to_acc with
      | .error e => .error e
      | .ok exTo =>
        if exTo = false then
          .error (.accountNotFound
            ("Cannot issue because the account " ++ to_acc ++ " does not exist"))
        else match verify_network env with
          | .error e => .error e
          | .ok _ =>
            .ok { contractName := "tokens", contractAction := "issue",
                  contractPayload :=
                    { symbol := pyUpper symbol, toAccount := some to_acc,
                      quantity := formatFixed amount t.precision },
                  requiredAuths := [t.issuer] }

/-- `issue_token` together with the broadcast trace. -/
def issue_token (env : Env) (symbol to_acc : String) (amount : ℚ) :
    Except SEErr CustomJson × List CustomJson :=
  match issue_token_result env symbol to_acc amount with
  | .ok c => (.ok c, [c])
  | .error e => (.error e, [])

/-- `place_order(user, action, symbol, quantity, price)` up to the broadcast:
action check, token lookup, the two precision checks, `dec_round` of quantity
and price to the token's precision, the branch-dependent balance check
(`symbol` balance for sell, native-coin balance against
`dec_round(quantity * price, native_token.precision)` for buy), then the
payload with `quantity` at the token's precision and `price` at the NATIVE
token's precision (`round_str(price, self.native_token.precision)`, line
997), `verify_network`, broadcast.  A missing native token makes
`self.native_token.precision` raise `AttributeError` (`None.precision`). -/
def place_order_result (env : Env) (user action symbol : String)
    (quantity price : ℚ) : Except SEErr CustomJson :=
  let act := pyLower action
  let sym := pyUpper symbol
  if act ≠ "buy" ∧ act ≠ "sell" then .error .attributeError
  else match get_token env sym with
  | none => .error .tokenNotFound
  | some t =>
    let prec := t.precision
    if quantity < pyPowTenNeg prec then .error .arithmeticError
    else if price < pyPowTenNeg prec then .error .arithmeticError
    else
      let q := decRoundDown quantity prec
      let p := decRoundDown price prec
      if act = "sell" then
        let bal := get_token_balance env user sym
        if bal < q then .error .notEnoughBalance
        else match get_token env env.nativeCoin with
          | none => .error .attributeError
          | some nt =>
            match verify_network env with
            | .error e => .error e
            | .ok _ =>
              .ok { contractName := "market", contractAction := act,
                    contractPayload :=
                      { symbol := sym, quantity := formatFixed q prec,
                        price := some (formatFixed p nt.precision) },
                    requiredAuths := [user] }
      else
        let bal := get_token_balance env user env.nativeCoin
        match get_token env env.nativeCoin with
        | none => .error .attributeError
        | some nt =>
          let total_native := decRoundDown (q * p) nt.precision
          if bal < total_native then .error .notEnoughBalance
          else match verify_network env with
            | .error e => .error e
            | .ok _ =>
              .ok { contractName := "market", contractAction := act,
                    contractPayload :=
                      { symbol := sym, quantity := formatFixed q prec,
                        price := some (formatFixed p nt.precision) },
                    requiredAuths := [user] }

/-- `place_order` together with the broadcast trace. -/
def place_order (env : Env) (user action symbol : String) (quantity price : ℚ) :
    Except SEErr CustomJson × List CustomJson :=
  match place_order_result env user action symbol quantity price with
  | .ok c => (.ok c, [c])
  | .error e => (.error e, [])

/-! ## The caching layer (se_cache / _cache_blacklisted) -/

/-- `_cache_blacklisted()`: the three introspection calls
(`caller_name`, `calling_function`, `calling_module`) may each raise, which
the surrounding `try`/`except` turns into the answer `False` (logged, never
propagated).  Otherwise: exact caller-path match, then plain function-name
match, then exact module match, then ancestor-module match
(`mod.startswith(m + '.')`). -/
def cache_blacklisted (callerName callingFunction callingModule : Except Unit String)
    (blacklist blacklistFuncs blacklistMods : List String) : Bool :=
  match callerName with
  | .error _ => false
  | .ok cn =>
    if cn ∈ blacklist then true
    else match callingFunction with
      | .error _ => false
      | .ok cf =>
        if cf ∈ blacklistFuncs then true
        else match callingModule with
          | .error _ => false
          | .ok cm =>
            if cm ∈ blacklistMods then true
            else blacklistMods.any (fun m => pyStartsWith cm (m ++ "."))

/-- The process-wide cache (`privex.helpers.r_cache` backing store),
modelled as an association list from cache key to cached value. -/
def cacheLookup {α : Type} (st : List (String × α)) (key : String) : Option α :=
  match st.find? (fun kv => kv.fst == key) with
  | some kv => some kv.snd
  | none => none

/-- `r_cache(cache_key, cache_time)(f)(*args)`: return the cached value on a
hit, otherwise call `f` and store the result.  (The time-to-live bookkeeping
of `r_cache` is external library behaviour and is not modelled; the claims
under verification do not involve expiry.) -/
def r_cache_apply {α : Type} (key : String) (f : Unit → α)
    (st : List (String × α)) : α × List (String × α) :=
  match cacheLookup st key with
  | some v => (v, st)
  | none => (f (), (key, f ()) :: st)

/-- The wrapper produced by `se_cache(cache_key, cache_time)`: blacklisted
callers call `f` directly; else if `SteemEngineToken.CACHE` is set the call
goes through `r_cache`; else `f` is called directly. -/
def se_cache_apply {α : Type} (blacklisted cacheOn : Bool) (key : String)
    (f : Unit → α) (st : List (String × α)) : α × List (String × α) :=
  if blacklisted then (f (), st)
  else if cacheOn then r_cache_apply key f st
  else (f (), st)

/-! ## Concrete fixture environment for witnesses and counterexamples -/

deriving instance DecidableEq for Except

/-- A concrete fixture world: a steem-network client with three tokens of
precisions 1, 3, 6 and 8, an existing account `bob` (with balances), and an
account `alice` that has balance rows but does not exist on chain. -/
def demoEnv : Env :=
  { findToken := fun s =>
      if s = "ENG" then some { symbol := "ENG", issuer := "issuer1", precision := 1 }
      else if s = "KAPA" then some { symbol := "KAPA", issuer := "issuer2", precision := 3 }
      else if s = "TOKSIX" then some { symbol := "TOKSIX", issuer := "issuer3", precision := 6 }
      else if s = "STEEMP" then some { symbol := "STEEMP", issuer := "steem-peg", precision := 8 }
      else none,
    balRows := fun u =>
      if u = "alice" then [ { account := "alice", symbol := "ENG", balance := 5 },
                            { account := "alice", symbol := "KAPA", balance := 100 },
                            { account := "alice", symbol := "STEEMP", balance := 100 } ]
      else if u = "bob" then [ { account := "bob", symbol := "ENG", balance := 5 },
                               { account := "bob", symbol := "KAPA", balance := 100 },
                               { account := "bob", symbol := "STEEMP", balance := 100 } ]
      else [],
    accountLen := fun u => if u = "bob" then 1 else 0,
    chainName := "steem", network := "steem", nativeCoin := "STEEMP",
    networkAccount := "ssc-mainnet1" }

/-- Three raw order rows with prices 1, 3 and 2, for concrete sorting
runs. -/
def demoOrders : List RawOrder :=
  [ { symbol := "kapa", account := "Bob", quantity := 10, price := 1,
      timestamp := 100, expiration := 200 },
    { symbol := "kapa", account := "carl", quantity := 20, price := 3,
      timestamp := 90, expiration := 210 },
    { symbol := "kapa", account := "dave", quantity := 30, price := 2,
      timestamp := 80, expiration := 220 } ]

/-! ## Helper lemmas -/

/-- `account_exists` can only raise `WrongNetwork`. -/
theorem account_exists_error_eq {env : Env} {u : String} {e : SEErr}
    (h : account_exists env u = .error e) : e = SEErr.wrongNetwork := by
  unfold account_exists verify_network at h
  by_cases hc : pyLower env.chainName ≠ pyLower env.network
  · rw [if_pos hc] at h
    exact (Except.error.injEq _ _).mp h.symm |>.symm ▸ rfl
  · rw [if_neg hc] at h
    cases h

/-- `verify_network` can only raise `WrongNetwork`. -/
theorem verify_network_error_eq {env : Env} {e : SEErr}
    (h : verify_network env = .error e) : e = SEErr.wrongNetwork := by
  unfold verify_network at h
  by_cases hc : pyLower env.chainName ≠ pyLower env.network
  · rw [if_pos hc] at h
    exact ((Except.error.injEq _ _).mp h).symm
  · rw [if_neg hc] at h
    cases h

/-- `pySorted` with `reverse=False` is ascending in the key. -/
theorem pySorted_pairwise_asc (key : SEOrder → ℚ) (l : List SEOrder) :
    (pySorted key false l).Pairwise (fun a b => key a ≤ key b) := by
  have hrw : pySorted key false l
      = List.insertionSort (fun a b => key a ≤ key b) l := rfl
  rw [hrw]
  haveI : IsTotal SEOrder (fun a b => key a ≤ key b) :=
    ⟨fun a b => le_total (key a) (key b)⟩
  haveI : IsTrans SEOrder (fun a b => key a ≤ key b) :=
    ⟨fun _ _ _ hab hbc => le_trans hab hbc⟩
  exact List.sorted_insertionSort _ l

/-- `pySorted` with `reverse=True` is descending in the key. -/
theorem pySorted_pairwise_desc (key : SEOrder → ℚ) (l : List SEOrder) :
    (pySorted key true l).Pairwise (fun a b => key b ≤ key a) := by
  have hrw : pySorted key true l
      = (List.insertionSort (fun a b => key a ≤ key b) l.reverse).reverse := rfl
  rw [hrw, List.pairwise_reverse]
  haveI : IsTotal SEOrder (fun a b => key a ≤ key b) :=
    ⟨fun a b => le_total (key a) (key b)⟩
  haveI : IsTrans SEOrder (fun a b => key a ≤ key b) :=
    ⟨fun _ _ _ hab hbc => le_trans hab hbc⟩
  exact List.sorted_insertionSort _ l.reverse

/-- The characters produced by `digitChar` are decimal digits (in particular
neither a decimal point, a minus sign, nor an exponent marker). -/
theorem digitChar_spec (d : ℕ) :
    (digitChar d).isDigit = true ∧ digitChar d ≠ '.' ∧ digitChar d ≠ '-' := by
  unfold digitChar
  split <;> exact ⟨by decide, by decide, by decide⟩

theorem natChars_mem (fuel : ℕ) : ∀ (n : ℕ), ∀ c ∈ natChars fuel n,
    c.isDigit = true ∧ c ≠ '.' ∧ c ≠ '-' := by
  induction fuel with
  | zero => intro n c hc; simp [natChars] at hc
  | succ f ih =>
    intro n c hc
    cases n with
    | zero => simp [natChars] at hc
    | succ m =>
      rw [show natChars (f + 1) (m + 1)
          = natChars f ((m + 1) / 10) ++ [digitChar ((m + 1) % 10)] from rfl] at hc
      rcases List.mem_append.mp hc with hmem | hmem
      · exact ih _ c hmem
      · rcases List.mem_singleton.mp hmem with rfl
        exact digitChar_spec _

theorem natRepr_mem (n : ℕ) : ∀ c ∈ natRepr n,
    c.isDigit = true ∧ c ≠ '.' ∧ c ≠ '-' := by
  intro c hc
  unfold natRepr at hc
  by_cases h0 : n = 0
  · rw [if_pos h0] at hc
    rcases List.mem_singleton.mp hc with rfl
    exact ⟨by decide, by decide, by decide⟩
  · rw [if_neg h0] at hc
    exact natChars_mem _ _ c hc

theorem fracChars_mem (v dp : ℕ) : ∀ c ∈ fracChars v dp,
    c.isDigit = true ∧ c ≠ '.' ∧ c ≠ '-' := by
  intro c hc
  unfold fracChars at hc
  rcases List.mem_map.mp hc with ⟨i, _, rfl⟩
  exact digitChar_spec _

theorem fracChars_length (v dp : ℕ) : (fracChars v dp).length = dp := by
  unfold fracChars
  rw [List.length_map, List.length_range]

/-- Dropping while a predicate holds skips a prefix on which it always
holds. -/
theorem dropWhile_append_of_all {α : Type} (p : α → Bool) (l₁ l₂ : List α)
    (h : ∀ c ∈ l₁, p c = true) :
    (l₁ ++ l₂).dropWhile p = l₂.dropWhile p := by
  induction l₁ with
  | nil => simp
  | cons a l ih =>
    rw [List.cons_append, List.dropWhile_cons, if_pos (h a (by simp))]
    exact ih (fun c hc => h c (List.mem_cons_of_mem _ hc))

/-- List-level core of the fractional-digit count: with a dot-free sign and
integer part, the characters after the first dot are exactly the fractional
part. -/
theorem fracDigits_build (sign ip fp : List Char) (dp : ℕ)
    (hsign : ∀ c ∈ sign, (c != '.') = true)
    (hip : ∀ c ∈ ip, (c != '.') = true)
    (hfp : fp.length = dp) :
    (((sign ++ ip ++ (if dp = 0 then [] else '.' :: fp)).dropWhile
        (fun c => c != '.')).drop 1).length = dp := by
  have hall : ∀ c ∈ sign ++ ip, (c != '.') = true := by
    intro c hc
    rcases List.mem_append.mp hc with hc | hc
    · exact hsign c hc
    · exact hip c hc
  by_cases h0 : dp = 0
  · subst h0
    rw [if_pos rfl, List.append_nil]
    rw [List.dropWhile_eq_nil_iff.mpr hall]
    rfl
  · rw [if_neg h0, dropWhile_append_of_all _ _ _ hall]
    rw [List.dropWhile_cons, if_neg (by decide)]
    rw [List.drop_one, List.tail_cons]
    exact hfp

/-- The decimal-format lemma: `('{0:.' + str(dp) + 'f}')` always prints with
exactly `dp` fractional digits, in plain (non-scientific) notation, never
stripping trailing zeros below `dp`. -/
theorem formatFixed_fixedPointString (x : ℚ) (dp : ℕ) :
    fixedPointString (formatFixed x dp) dp := by
  constructor
  · show fracDigits (formatFixed x dp) = dp
    unfold fracDigits formatFixed
    refine fracDigits_build _ _ _ dp ?_ ?_ (fracChars_length _ _)
    · intro c hc
      split at hc
      · rcases List.mem_singleton.mp hc with rfl
        decide
      · simp at hc
    · intro c hc
      exact bne_iff_ne.mpr (natRepr_mem _ c hc).2.1
  · intro c hc
    show c.isDigit = true ∨ c = '.' ∨ c = '-'
    have hc2 : c ∈ (if roundHalfEvenInt (x * mkRat ((10 ^ dp : ℕ) : ℤ) 1) < 0
        then ['-'] else [])
        ++ natRepr ((roundHalfEvenInt (x * mkRat ((10 ^ dp : ℕ) : ℤ) 1)).natAbs / 10 ^ dp)
        ++ (if dp = 0 then []
            else '.' :: fracChars
              ((roundHalfEvenInt (x * mkRat ((10 ^ dp : ℕ) : ℤ) 1)).natAbs % 10 ^ dp) dp) := hc
    rcases List.mem_append.mp hc2 with hcc | hcc
    · rcases List.mem_append.mp hcc with hcc | hcc
      · split at hcc
        · rcases List.mem_singleton.mp hcc with rfl
          right; right; rfl
        · simp at hcc
      · exact Or.inl (natRepr_mem _ c hcc).1
    · by_cases h0 : dp = 0
      · rw [if_pos h0] at hcc
        simp at hcc
      · rw [if_neg h0] at hcc
        rcases List.mem_cons.mp hcc with rfl | hcc
        · right; left; rfl
        · exact Or.inl (fracChars_mem _ _ c hcc).1

/-! ## Claim theorems -/

/-- C10: every successfully constructed open-order record (`SEOrder`) has its
`symbol` equal to the upper-cased raw symbol and its `account` equal to the
lower-cased string form of the raw account, whatever the casing of the raw
mapping; the embedding is purely functional, so no later operation on the
record mutates these fields. -/
theorem C10_order_normalization (r : RawOrder) (tl : ℚ) :
    (mkSEOrder r tl).symbol = pyUpper r.symbol ∧
    (mkSEOrder r tl).account = pyLower r.account :=
  ⟨rfl, rfl⟩

/-- C8: constructing a Trade record succeeds exactly when its direction —
the `direction` field, or, when that is absent/empty, the raw `type` field
(this resolution is `resolveDirection`) — resolves to `buy` or `sell`; any
other resolved value (including none at all) fails construction, and a
successfully built record always carries `buy` or `sell`. -/
theorem C8_trade_direction_validation (r : RawTrade) :
    ((∃ t, mkSETrade r = .ok t) ↔
      (resolveDirection r.direction r.rawType = some "buy" ∨
       resolveDirection r.direction r.rawType = some "sell"))
    ∧ (∀ t, mkSETrade r = .ok t → t.direction = "buy" ∨ t.direction = "sell") := by
  unfold mkSETrade
  rcases hd : resolveDirection r.direction r.rawType with _ | d
  · refine ⟨⟨fun h => ?_, fun h => ?_⟩, fun t ht => by cases ht⟩
    · rcases h with ⟨t, ht⟩
      cases ht
    · rcases h with h | h <;> cases h
  · dsimp only
    by_cases hbs : d = "buy" ∨ d = "sell"
    · rw [if_pos hbs]
      refine ⟨⟨fun _ => ?_, fun _ => ⟨_, rfl⟩⟩, fun t ht => ?_⟩
      · rcases hbs with rfl | rfl
        · exact Or.inl rfl
        · exact Or.inr rfl
      · cases ht
        exact hbs
    · rw [if_neg hbs]
      refine ⟨⟨fun h => ?_, fun h => ?_⟩, fun t ht => by cases ht⟩
      · rcases h with ⟨t, ht⟩
        cases ht
      · rcases h with h | h <;> injection h with h2
        · exact absurd (Or.inl h2) hbs
        · exact absurd (Or.inr h2) hbs

/-- C5: a trade-history query whose remote `find` call returns an absent
(`None`) response raises `NoResults`, while an empty row list parses to an
empty sequence of Trade records without raising — for `query_order_history`
and its wrappers `order_history`, `find_fulfilled_buys`,
`find_fulfilled_sells` and `find_fulfilled`, so callers can tell a failed
query from an empty match set. -/
theorem C5_no_results_vs_empty :
    query_order_history none = .error SEErr.noResults
    ∧ query_order_history (some []) = .ok []
    ∧ order_history none = .error SEErr.noResults
    ∧ order_history (some []) = .ok []
    ∧ find_fulfilled_buys none = .error SEErr.noResults
    ∧ find_fulfilled_buys (some []) = .ok []
    ∧ find_fulfilled_sells none = .error SEErr.noResults
    ∧ find_fulfilled_sells (some []) = .ok []
    ∧ find_fulfilled none (some []) = .error SEErr.noResults
    ∧ find_fulfilled (some []) none = .error SEErr.noResults
    ∧ find_fulfilled (some []) (some []) = .ok []
    ∧ get_orderbook "buy" none [] (some OrderKey.price) none = .error SEErr.noResults :=
  ⟨rfl, rfl, rfl, rfl, rfl, rfl, rfl, rfl, rfl, rfl, rfl, rfl⟩

/-- C9: the caching wrapper calls the underlying function directly — same
result, no cache read or write — whenever the global cache switch is off or
the caller is blacklisted; and any introspection failure inside the blacklist
check itself resolves to `not blacklisted` instead of propagating. -/
theorem C9_cache_bypass {α : Type} (blacklisted cacheOn : Bool) (key : String)
    (f : Unit → α) (st : List (String × α)) (cn cf : String)
    (cfE cmE : Except Unit String) (bl blf blm : List String) :
    (se_cache_apply blacklisted false key f st = (f (), st))
    ∧ (se_cache_apply true cacheOn key f st = (f (), st))
    ∧ (cache_blacklisted (.error ()) cfE cmE bl blf blm = false)
    ∧ (cn ∉ bl → cache_blacklisted (.ok cn) (.error ()) cmE bl blf blm = false)
    ∧ (cn ∉ bl → cf ∉ blf →
        cache_blacklisted (.ok cn) (.ok cf) (.error ()) bl blf blm = false) := by
  refine ⟨?_, ?_, rfl, ?_, ?_⟩
  · unfold se_cache_apply
    cases blacklisted <;> rfl
  · rfl
  · intro hcn
    simp [cache_blacklisted, hcn]
  · intro hcn hcf
    simp [cache_blacklisted, hcn, hcf]

/-- C9 witness: a concrete instantiation of every hypothesis-bearing part of
`C9_cache_bypass`. -/
theorem C9_cache_bypass_witness :
    (se_cache_apply false false "pvx_seng:token:ENG" (fun _ => (7 : ℕ)) [] = ((7 : ℕ), []))
    ∧ (cache_blacklisted (.ok "mymod.myfunc") (.error ()) (.ok "mymod")
        ["other.f"] ["g"] ["h"] = false) := by
  have h := C9_cache_bypass false false "pvx_seng:token:ENG" (fun _ => (7 : ℕ)) []
    "mymod.myfunc" "g2" (.error ()) (.ok "mymod") ["other.f"] ["g"] ["h"]
  exact ⟨h.1, h.2.2.2.1 (by decide)⟩

/-- C1 (code bug, concrete evaluation): in the fixture world the sender
`alice` does not exist and the receiver `bob` does.  `send_token` raises
`AccountNotFound` before any broadcast — but the message, built by
`'Cannot send because the sender {} does not exist'.format(to_acc)`
(line 816 of SteemEngineToken.py), names the RECEIVER `bob` while calling it
"the sender", instead of naming the missing sender `alice`.  The receiver
check and `issue_token` name the right account, also without broadcasting. -/
theorem C1_sender_message_names_receiver :
    (send_token demoEnv "ENG" "alice" "bob" 1 ""
      = (.error (.accountNotFound "Cannot send because the sender bob does not exist"), []))
    ∧ (send_token demoEnv "ENG" "bob" "alice" 1 ""
      = (.error (.accountNotFound "Cannot send because the receiver alice does not exist"), []))
    ∧ (issue_token demoEnv "ENG" "alice" 1
      = (.error (.accountNotFound "Cannot issue because the account alice does not exist"), [])) := by
  refine ⟨by decide, by decide, by decide⟩

/-- C2 (code bug, concrete evaluation): the minimum-amount check of
`send_token` compares against `Decimal(pow(10, -precision))`, a binary float
approximation of `10 ^ -precision`, not the exact decimal.  For precision 1
the threshold is `0.1000000000000000055511151231257827021181583404541015625`,
strictly above `1/10`, so the boundary amount exactly `10 ^ -1` — which the
docstring and the spec say is accepted — raises `ArithmeticError`.  In the
other direction, for precision 6 the float threshold is strictly BELOW
`10 ^ -6`, and the amount `pyPowTenNeg 6 < 10 ^ -6` sails past the precision
check (it then fails only the balance check, proving the precision check
passed). -/
theorem C2_float_threshold_boundary :
    ((1 : ℚ)/10 < pyPowTenNeg 1)
    ∧ (send_token demoEnv "ENG" "alice" "bob" ((1 : ℚ)/10) ""
        = (.error .arithmeticError, []))
    ∧ (pyPowTenNeg 6 < (1 : ℚ)/10^6)
    ∧ (send_token demoEnv "TOKSIX" "alice" "bob" (pyPowTenNeg 6) ""
        = (.error .notEnoughBalance, [])) := by
  refine ⟨by decide, by decide, by decide, by decide⟩

/-- C4: when the token exists and the amount passes the precision check,
`send_token` raises `NotEnoughBalance` exactly when the amount strictly
exceeds the sender's balance as returned by `get_token_balance` (an amount
equal to the balance does not trigger it), and in that case the broadcast
call is never invoked. -/
theorem C4_send_token_balance_guard (env : Env) (symbol from_acc to_acc memo : String)
    (amount : ℚ) (t : Token)
    (ht : get_token env symbol = some t)
    (hq : pyPowTenNeg t.precision ≤ amount) :
    ((send_token_result env symbol from_acc to_acc amount memo
        = .error SEErr.notEnoughBalance)
      ↔ get_token_balance env from_acc symbol < amount)
    ∧ (get_token_balance env from_acc symbol < amount →
        (send_token env symbol from_acc to_acc amount memo).2 = []) := by
  have hiff : (send_token_result env symbol from_acc to_acc amount memo
      = .error SEErr.notEnoughBalance)
      ↔ get_token_balance env from_acc symbol < amount := by
    unfold send_token_result
    rw [ht]
    dsimp only
    rw [if_neg (not_lt.mpr hq)]
    by_cases hb : get_token_balance env from_acc symbol < amount
    · rw [if_pos hb]
      simp [hb]
    · rw [if_neg hb]
      constructor
      · intro h
        exfalso
        rcases hae : account_exists env from_acc with e | exFrom
        · rw [hae] at h
          dsimp only at h
          rcases account_exists_error_eq hae with rfl
          simp at h
        · rw [hae] at h
          dsimp only at h
          by_cases hex : exFrom = false
          · rw [if_pos hex] at h
            simp at h
          · rw [if_neg hex] at h
            rcases hae2 : account_exists env to_acc with e2 | exTo
            · rw [hae2] at h
              dsimp only at h
              rcases account_exists_error_eq hae2 with rfl
              simp at h
            · rw [hae2] at h
              dsimp only at h
              by_cases hex2 : exTo = false
              · rw [if_pos hex2] at h
                simp at h
              · rw [if_neg hex2] at h
                rcases hvn : verify_network env with e3 | u
                · rw [hvn] at h
                  dsimp only at h
                  rcases verify_network_error_eq hvn with rfl
                  simp at h
                · rw [hvn] at h
                  dsimp only at h
                  simp at h
      · intro h
        exact absurd h hb
  refine ⟨hiff, fun hlt => ?_⟩
  unfold send_token
  rw [hiff.mpr hlt]

/-- C4 witness: a concrete run of `C4_send_token_balance_guard` — in the
fixture world `bob` holds 5 ENG, sending 6 raises `NotEnoughBalance` with no
broadcast, and sending exactly 5 (amount equal to the balance) does not. -/
theorem C4_send_token_balance_guard_witness :
    (send_token_result demoEnv "ENG" "bob" "bob" 6 "" = .error SEErr.notEnoughBalance)
    ∧ ((send_token demoEnv "ENG" "bob" "bob" 6 "").2 = [])
    ∧ (send_token_result demoEnv "ENG" "bob" "bob" 5 "" ≠ .error SEErr.notEnoughBalance) := by
  have h := C4_send_token_balance_guard demoEnv "ENG" "bob" "bob" "" 6
    { symbol := "ENG", issuer := "issuer1", precision := 1 } (by decide) (by decide)
  have h5 := C4_send_token_balance_guard demoEnv "ENG" "bob" "bob" "" 5
    { symbol := "ENG", issuer := "issuer1", precision := 1 } (by decide) (by decide)
  refine ⟨h.1.mpr (by decide), h.2 (by decide), fun hcon => ?_⟩
  have : get_token_balance demoEnv "bob" "ENG" < 5 := h5.1.mp hcon
  exact absurd this (by decide)

/-- C3: when the action is valid, the token exists, both amounts pass the
precision checks and the native token is known, `place_order` raises
`NotEnoughBalance` for a `sell` exactly when the user's balance of the traded
symbol is strictly below the precision-rounded quantity, and for a `buy`
exactly when the user's native-coin balance is strictly below
`quantity * price` rounded to the native coin's precision — so a balance
exactly equal to the requirement passes in both branches. -/
theorem C3_place_order_balance_guard (env : Env) (user symbol : String)
    (quantity price : ℚ) (t nt : Token)
    (ht : get_token env (pyUpper symbol) = some t)
    (hq : pyPowTenNeg t.precision ≤ quantity)
    (hp : pyPowTenNeg t.precision ≤ price)
    (hnt : get_token env env.nativeCoin = some nt) :
    ((place_order_result env user "sell" symbol quantity price
        = .error SEErr.notEnoughBalance)
      ↔ get_token_balance env user (pyUpper symbol)
          < decRoundDown quantity t.precision)
    ∧ ((place_order_result env user "buy" symbol quantity price
        = .error SEErr.notEnoughBalance)
      ↔ get_token_balance env user env.nativeCoin
          < decRoundDown
              (decRoundDown quantity t.precision * decRoundDown price t.precision)
              nt.precision) := by
  constructor
  · unfold place_order_result
    dsimp only
    rw [if_neg (by decide : ¬(pyLower "sell" ≠ "buy" ∧ pyLower "sell" ≠ "sell"))]
    rw [ht]
    dsimp only
    rw [if_neg (not_lt.mpr hq), if_neg (not_lt.mpr hp)]
    rw [if_pos (by decide : pyLower "sell" = "sell")]
    by_cases hb : get_token_balance env user (pyUpper symbol)
        < decRoundDown quantity t.precision
    · rw [if_pos hb]
      simp [hb]
    · rw [if_neg hb]
      constructor
      · intro h
        exfalso
        rw [hnt] at h
        dsimp only at h
        rcases hvn : verify_network env with e | u
        · rw [hvn] at h
          dsimp only at h
          rcases verify_network_error_eq hvn with rfl
          simp at h
        · rw [hvn] at h
          dsimp only at h
          simp at h
      · intro h
        exact absurd h hb
  · unfold place_order_result
    dsimp only
    rw [if_neg (by decide : ¬(pyLower "buy" ≠ "buy" ∧ pyLower "buy" ≠ "sell"))]
    rw [ht]
    dsimp only
    rw [if_neg (not_lt.mpr hq), if_neg (not_lt.mpr hp)]
    rw [if_neg (by decide : ¬(pyLower "buy" = "sell"))]
    rw [hnt]
    dsimp only
    by_cases hb : get_token_balance env user env.nativeCoin
        < decRoundDown
            (decRoundDown quantity t.precision * decRoundDown price t.precision)
            nt.precision
    · rw [if_pos hb]
      simp [hb]
    · rw [if_neg hb]
      constructor
      · intro h
        exfalso
        rcases hvn : verify_network env with e | u
        · rw [hvn] at h
          dsimp only at h
          rcases verify_network_error_eq hvn with rfl
          simp at h
        · rw [hvn] at h
          dsimp only at h
          simp at h
      · intro h
        exact absurd h hb

/-- C3 witness: concrete boundary runs of `C3_place_order_balance_guard` in
the fixture world — `bob` holds 100 KAPA and 100 STEEMP; a sell of 101 KAPA
fails, a sell of exactly 100 passes the balance check, a buy of 101 KAPA at
price 1 (native cost 101 STEEMP) fails, and a buy of exactly 100 passes. -/
theorem C3_place_order_balance_guard_witness :
    (place_order_result demoEnv "bob" "sell" "KAPA" 101 1 = .error SEErr.notEnoughBalance)
    ∧ (place_order_result demoEnv "bob" "sell" "KAPA" 100 1 ≠ .error SEErr.notEnoughBalance)
    ∧ (place_order_result demoEnv "bob" "buy" "KAPA" 101 1 = .error SEErr.notEnoughBalance)
    ∧ (place_order_result demoEnv "bob" "buy" "KAPA" 100 1 ≠ .error SEErr.notEnoughBalance) := by
  have h101 := C3_place_order_balance_guard demoEnv "bob" "KAPA" 101 1
    { symbol := "KAPA", issuer := "issuer2", precision := 3 }
    { symbol := "STEEMP", issuer := "steem-peg", precision := 8 }
    (by decide) (by decide) (by decide) (by decide)
  have h100 := C3_place_order_balance_guard demoEnv "bob" "KAPA" 100 1
    { symbol := "KAPA", issuer := "issuer2", precision := 3 }
    { symbol := "STEEMP", issuer := "steem-peg", precision := 8 }
    (by decide) (by decide) (by decide) (by decide)
  refine ⟨h101.1.mpr (by decide), fun hcon => ?_, h101.2.mpr (by decide), fun hcon => ?_⟩
  · exact absurd (h100.1.mp hcon) (by decide)
  · exact absurd (h100.2.mp hcon) (by decide)

/-- C6: with the default sorting arguments (`sort_by='price'`,
`sort_reverse=None`, no custom indexes) `get_orderbook` returns buy orders
sorted by price descending and sell orders sorted by price ascending; an
explicit `sort_by` attribute and/or `sort_reverse` flag instead sorts by that
attribute in the requested order (ascending when the reverse flag is absent
or `False`, descending when `True`). -/
theorem C6_orderbook_sorting (res : List RawOrder) (k : OrderKey) (rev : Bool)
    (direction : String) :
    (∀ l, get_orderbook "buy" (some res) [] (some OrderKey.price) none = .ok l →
        l.Pairwise (fun a b => b.price ≤ a.price))
    ∧ (∀ l, get_orderbook "sell" (some res) [] (some OrderKey.price) none = .ok l →
        l.Pairwise (fun a b => a.price ≤ b.price))
    ∧ ((direction = "buy" ∨ direction = "sell") → ∀ l,
        get_orderbook direction (some res) [] (some k) (some rev) = .ok l →
        (rev = true → l.Pairwise (fun a b => orderKey k b ≤ orderKey k a))
        ∧ (rev = false → l.Pairwise (fun a b => orderKey k a ≤ orderKey k b)))
    ∧ ((direction = "buy" ∨ direction = "sell") → k ≠ OrderKey.price → ∀ l,
        get_orderbook direction (some res) [] (some k) none = .ok l →
        l.Pairwise (fun a b => orderKey k a ≤ orderKey k b)) := by
  refine ⟨?_, ?_, ?_, ?_⟩
  · intro l hl
    have hrun : get_orderbook "buy" (some res) [] (some OrderKey.price) none
        = .ok (pySorted (orderKey OrderKey.price) true
            (res.map (fun r => mkSEOrder r 0))) := rfl
    rw [hrun] at hl
    cases hl
    exact pySorted_pairwise_desc (orderKey OrderKey.price) _
  · intro l hl
    have hrun : get_orderbook "sell" (some res) [] (some OrderKey.price) none
        = .ok (pySorted (orderKey OrderKey.price) false
            (res.map (fun r => mkSEOrder r 0))) := rfl
    rw [hrun] at hl
    cases hl
    exact pySorted_pairwise_asc (orderKey OrderKey.price) _
  · have hcore : ∀ dir : String, ¬(pyLower dir ≠ "buy" ∧ pyLower dir ≠ "sell") → ∀ l,
        get_orderbook dir (some res) [] (some k) (some rev) = .ok l →
        (rev = true → l.Pairwise (fun a b => orderKey k b ≤ orderKey k a))
        ∧ (rev = false → l.Pairwise (fun a b => orderKey k a ≤ orderKey k b)) := by
      intro dir hdir l hl
      unfold get_orderbook at hl
      rw [if_neg hdir] at hl
      dsimp only at hl
      rw [if_neg (show ¬(([] : List Unit).length = 0
          ∧ (some k : Option OrderKey) = some OrderKey.price
          ∧ (some rev : Option Bool) = none) from
            fun hcon => by rcases hcon with ⟨-, -, hc⟩; cases hc)] at hl
      cases hl
      constructor
      · intro hrev
        subst hrev
        exact pySorted_pairwise_desc (orderKey k) _
      · intro hrev
        subst hrev
        exact pySorted_pairwise_asc (orderKey k) _
    rintro (rfl | rfl)
    · exact hcore "buy" (by decide)
    · exact hcore "sell" (by decide)
  · have hcore : ∀ dir : String, ¬(pyLower dir ≠ "buy" ∧ pyLower dir ≠ "sell") →
        k ≠ OrderKey.price → ∀ l,
        get_orderbook dir (some res) [] (some k) none = .ok l →
        l.Pairwise (fun a b => orderKey k a ≤ orderKey k b) := by
      intro dir hdir hk l hl
      unfold get_orderbook at hl
      rw [if_neg hdir] at hl
      dsimp only at hl
      rw [if_neg (show ¬(([] : List Unit).length = 0
          ∧ (some k : Option OrderKey) = some OrderKey.price
          ∧ (none : Option Bool) = none) from
            fun hcon => by
              rcases hcon with ⟨-, hc, -⟩
              exact hk (Option.some_injective _ hc))] at hl
      cases hl
      exact pySorted_pairwise_asc (orderKey k) _
    rintro (rfl | rfl)
    · exact hcore "buy" (by decide)
    · exact hcore "sell" (by decide)

/-- C6 witness: concrete runs of `C6_orderbook_sorting` on three raw orders
with prices 1, 3, 2 and quantities 10, 20, 30 — price-descending for the
default buy book, price-ascending for the default sell book, and
quantity-descending / timestamp-ascending for explicit overrides. -/
theorem C6_orderbook_sorting_witness :
    ((get_orderbook "buy" (some demoOrders) [] (some OrderKey.price) none).toOption.getD
        []).Pairwise (fun a b => b.price ≤ a.price)
    ∧ ((get_orderbook "sell" (some demoOrders) [] (some OrderKey.price) none).toOption.getD
        []).Pairwise (fun a b => a.price ≤ b.price)
    ∧ ((get_orderbook "buy" (some demoOrders) [] (some OrderKey.quantity)
          (some true)).toOption.getD []).Pairwise
        (fun a b => orderKey OrderKey.quantity b ≤ orderKey OrderKey.quantity a)
    ∧ ((get_orderbook "sell" (some demoOrders) [] (some OrderKey.timestamp)
          none).toOption.getD []).Pairwise
        (fun a b => orderKey OrderKey.timestamp a ≤ orderKey OrderKey.timestamp b) := by
  have h1 := C6_orderbook_sorting demoOrders OrderKey.quantity true "buy"
  have h2 := C6_orderbook_sorting demoOrders OrderKey.timestamp false "sell"
  refine ⟨h1.1 _ (by decide), h1.2.1 _ (by decide), ?_, ?_⟩
  · exact (h1.2.2.1 (Or.inl rfl) _ (by decide)).1 rfl
  · exact h2.2.2.2 (Or.inr rfl) (by decide) _ (by decide)

/-- C7 (amended): every decimal amount serialised into a `contractPayload`
that reaches the broadcast step is the plain fixed-point rendering of the
(rounded) amount: the quantity carries exactly the traded token's declared
precision of fractional digits in all three operations, and the price of
`place_order` carries exactly the NATIVE coin's declared precision of
fractional digits (`round_str(price, self.native_token.precision)`, line
997) — never scientific notation, never trailing-zero-stripped below those
digit counts. -/
theorem C7_payload_serialization (env : Env) :
    (∀ symbol from_acc to_acc memo amount (t : Token) cj,
        get_token env symbol = some t →
        send_token_result env symbol from_acc to_acc amount memo = .ok cj →
        cj.contractPayload.quantity = formatFixed amount t.precision ∧
        fixedPointString cj.contractPayload.quantity t.precision)
    ∧ (∀ symbol to_acc amount (t : Token) cj,
        get_token env symbol = some t →
        issue_token_result env symbol to_acc amount = .ok cj →
        cj.contractPayload.quantity = formatFixed amount t.precision ∧
        fixedPointString cj.contractPayload.quantity t.precision)
    ∧ (∀ user action symbol quantity price (t nt : Token) cj,
        get_token env (pyUpper symbol) = some t →
        get_token env env.nativeCoin = some nt →
        place_order_result env user action symbol quantity price = .ok cj →
        cj.contractPayload.quantity
            = formatFixed (decRoundDown quantity t.precision) t.precision ∧
        fixedPointString cj.contractPayload.quantity t.precision ∧
        cj.contractPayload.price
            = some (formatFixed (decRoundDown price t.precision) nt.precision) ∧
        fixedPointString ((cj.contractPayload.price).getD "") nt.precision) := by
  refine ⟨?_, ?_, ?_⟩
  · intro symbol from_acc to_acc memo amount t cj ht h
    unfold send_token_result at h
    rw [ht] at h
    dsimp only at h
    split at h
    · simp at h
    · split at h
      · simp at h
      · split at h
        · simp at h
        · split at h
          · simp at h
          · split at h
            · simp at h
            · split at h
              · simp at h
              · split at h
                · simp at h
                · cases h
                  exact ⟨rfl, formatFixed_fixedPointString _ _⟩
  · intro symbol to_acc amount t cj ht h
    unfold issue_token_result at h
    rw [ht] at h
    dsimp only at h
    split at h
    · simp at h
    · split at h
      · simp at h
      · split at h
        · simp at h
        · split at h
          · simp at h
          · cases h
            exact ⟨rfl, formatFixed_fixedPointString _ _⟩
  · intro user action symbol quantity price t nt cj ht hnt h
    unfold place_order_result at h
    dsimp only at h
    rw [ht, hnt] at h
    dsimp only at h
    split at h
    · simp at h
    · split at h
      · simp at h
      · split at h
        · simp at h
        · split at h
          · -- sell branch
            split at h
            · simp at h
            · split at h
              · simp at h
              · cases h
                exact ⟨rfl, formatFixed_fixedPointString _ _, rfl,
                  formatFixed_fixedPointString _ _⟩
          · -- buy branch
            split at h
            · simp at h
            · split at h
              · simp at h
              · cases h
                exact ⟨rfl, formatFixed_fixedPointString _ _, rfl,
                  formatFixed_fixedPointString _ _⟩

/-- C7 counterexample to the claim as stated: in the fixture world the traded
token KAPA has precision 3 while the native coin has precision 8, and a
successful `place_order` serialises the price with 8 fractional digits — the
native coin's precision — not with the traded token's declared precision 3 as
the claim asserts for every decimal amount in the payload. -/
theorem C7_price_precision_counterexample :
    (get_token demoEnv "KAPA"
      = some { symbol := "KAPA", issuer := "issuer2", precision := 3 })
    ∧ (place_order_result demoEnv "bob" "sell" "KAPA" 1 (9/10)
        = .ok { contractName := "market", contractAction := "sell",
                contractPayload := { symbol := "KAPA", quantity := "1.000",
                                     price := some "0.90000000" },
                requiredAuths := ["bob"] })
    ∧ fracDigits "0.90000000" = 8
    ∧ fracDigits "0.90000000" ≠ 3 := by
  refine ⟨by decide, by decide, by decide, by decide⟩

/-- C7 witness: concrete successful runs of all three operations through
`C7_payload_serialization` in the fixture world — the transfer and issue
quantity `5.0` (precision 1), the order quantity `1.000` (precision 3) and
the order price `0.90000000` (native precision 8) are all plain fixed-point
strings with exactly the respective number of fractional digits. -/
theorem C7_payload_serialization_witness :
    fixedPointString "5.0" 1 ∧ fixedPointString "1.000" 3
    ∧ fixedPointString "0.90000000" 8 := by
  obtain ⟨hs, hi, hp⟩ := C7_payload_serialization demoEnv
  have hsend := hs "ENG" "bob" "bob" "" 5
    { symbol := "ENG", issuer := "issuer1", precision := 1 }
    { contractName := "tokens", contractAction := "transfer",
      contractPayload := { symbol := "ENG", toAccount := some "bob",
                           quantity := "5.0", memo := some "" },
      requiredAuths := ["bob"] }
    (by decide) (by decide)
  have hplace := hp "bob" "sell" "KAPA" 1 (9/10)
    { symbol := "KAPA", issuer := "issuer2", precision := 3 }
    { symbol := "STEEMP", issuer := "steem-peg", precision := 8 }
    { contractName := "market", contractAction := "sell",
      contractPayload := { symbol := "KAPA", quantity := "1.000",
                           price := some "0.90000000" },
      requiredAuths := ["bob"] }
    (by decide) (by decide) (by decide)
  exact ⟨hsend.2, hplace.2.1, hplace.2.2.2⟩

/-- C8 witness: a raw row with an empty `direction` and raw `type` `sell`
constructs successfully through `C8_trade_direction_validation`, and the
built record carries a `buy`/`sell` direction. -/
theorem C8_trade_direction_validation_witness :
    ({ symbol := "ENG", quantity := 1, price := 1, timestamp := 0, volume := 1,
       direction := "sell", buyer := none, seller := none } : SETrade).direction = "buy"
    ∨ ({ symbol := "ENG", quantity := 1, price := 1, timestamp := 0, volume := 1,
         direction := "sell", buyer := none, seller := none } : SETrade).direction = "sell" := by
  have h := C8_trade_direction_validation
    { symbol := "ENG", quantity := 1, price := 1, timestamp := 0, volume := 1,
      direction := none, rawType := some "sell", buyer := none, seller := none }
  exact h.2 _ (by decide)

end SE
